import Mathlib

/-!
A shallow embedding of `src/simulator.ts` (the NATS OrderedConsumer churn
harness) together with proofs about its consumer-lifecycle state machine,
its readiness poller and its stream provisioner.

Modelling notes.

* The simulator runs on a single-threaded JavaScript event loop.  The
  periodic reporter (`printStats`, driven by `setInterval`) and the timer
  wake-ups are macrotasks: they run only when no `async` continuation
  (microtask) is pending.  Consequently the synchronous stretch of code
  between two `await` suspension points executes atomically with respect to
  every other loop and to the reporter.  The state machine below therefore
  has one transition per such stretch, and every reachable state of the
  machine is a possible reporter observation point.

* The JavaScript `Map` `activeConsumers` is keyed by the string id
  `"consumer_" + consumerId`, which is in bijection with the numeric
  `consumerId`; the embedding keys the association list by `consumerId`
  and keeps the string id inside the stored `ConsumerInfo`, exactly as the
  source stores it in the `id` field.

* Calls into the NATS client (`js.subscribe`, `subscription.destroy`,
  `jsm.streams.add`, `jsm.streams.list().next()`) are external; their
  outcomes are supplied as parameters (the `ok` flags of acts, the
  `outcomes` / `probe` functions), which is the standard way to close a
  program over its environment.
-/

namespace NatsSim

/-- A JavaScript error value as observed by the catch blocks of
`simulator.ts`: only the `message` and the `code` fields are ever
inspected (in `createStream`). -/
structure JsError where
  message : String
  code : String
deriving DecidableEq, Repr

/-- `strStartsWith hay pat`: the character list `hay` starts with `pat`. -/
def strStartsWith : List Char → List Char → Bool
  | _, [] => true
  | [], _ :: _ => false
  | c :: cs, d :: ds => c == d && strStartsWith cs ds

/-- `strIncludes hay pat`: `pat` occurs as a contiguous substring of
`hay`.  Models JavaScript `String.prototype.includes`. -/
def strIncludes : List Char → List Char → Bool
  | [], pat => pat.isEmpty
  | hay@(_ :: rest), pat => strStartsWith hay pat || strIncludes rest pat

/-- JavaScript `s.includes(pat)` on strings. -/
def jsIncludes (s pat : String) : Bool :=
  strIncludes s.data pat.data

/-- The "stream already exists" test of `createStream`
(`src/simulator.ts` line 71):
`e.message?.includes("already in use") || e.code === "10058"`. -/
def isAlreadyInUse (e : JsError) : Bool :=
  jsIncludes e.message "already in use" || e.code == "10058"

/-- What `createStream` did when it returned (it always returns normally:
the `catch` swallows every error and after the 10-attempt loop the
function simply falls through with no throw). -/
inductive CreateStreamResult where
  | created (attempt : Nat)
  | alreadyExists (attempt : Nat)
  | retriesExhausted
deriving DecidableEq, Repr

/-- The `for (let attempt = 0; attempt < 10; attempt++)` loop of
`createStream` (`src/simulator.ts` lines 55-78).  `outcomes attempt` is
the result of the `jsm.streams.add` call on that attempt: `none` means
the call succeeded, `some e` means it raised `e`.  `fuel` is the number
of attempts that remain. -/
def createStreamLoop (outcomes : Nat → Option JsError) : Nat → Nat → CreateStreamResult
  | _, 0 => .retriesExhausted
  | attempt, fuel + 1 =>
    match outcomes attempt with
    | none => .created attempt
    | some e =>
      if isAlreadyInUse e then .alreadyExists attempt
      else createStreamLoop outcomes (attempt + 1) fuel

/-- `createStream` (`src/simulator.ts` lines 54-79): at most 10 attempts,
"already in use" treated as success, every other error logged, slept on
and retried; after the loop the function returns normally. -/
def createStream (outcomes : Nat → Option JsError) : CreateStreamResult :=
  createStreamLoop outcomes 0 10

/-- The loop of `waitForJetStream` (`src/simulator.ts` lines 41-52).
`probe i` is the outcome of the `jsm.streams.list().next()` call on
attempt `i` (`true` = it did not raise).  Returns the boolean result
together with the number of 2000 ms sleeps performed. -/
def waitForJetStreamLoop (probe : Nat → Bool) : Nat → Nat → Nat → Bool × Nat
  | _, 0, sleeps => (false, sleeps)
  | i, fuel + 1, sleeps =>
    if probe i then (true, sleeps)
    else waitForJetStreamLoop probe (i + 1) fuel (sleeps + 1)

/-- `waitForJetStream(jsm, maxRetries = 30)`: poll the probe up to
`maxRetries` times, sleeping between attempts; never raises. -/
def waitForJetStream (probe : Nat → Bool) (maxRetries : Nat := 30) : Bool × Nat :=
  waitForJetStreamLoop probe 0 maxRetries 0

/-- How the consumer-mode branch of `main` (`src/simulator.ts` lines
229-249) ends its start-up sequence. -/
inductive MainOutcome where
  /-- `process.exit(1)` because `waitForJetStream` returned `false`. -/
  | exitedJetStreamNotReady
  /-- The consumer loops were started; `createStream`'s outcome was
  ignored by `main` (its result is `void` and it never throws). -/
  | startedConsumerLoops (provisioning : CreateStreamResult)
deriving DecidableEq, Repr

/-- The consumer-mode start-up sequence of `main`: readiness poll, then
provisioning, then the loops.  The only abort is the readiness one. -/
def consumerMain (probe : Nat → Bool) (outcomes : Nat → Option JsError) : MainOutcome :=
  if (waitForJetStream probe 30).1 then
    .startedConsumerLoops (createStream outcomes)
  else
    .exitedJetStreamNotReady

/-- The `ConsumerInfo` record of `src/simulator.ts` (lines 12-18).  The
subscription handle is opaque to the harness, so it is modelled as
`Option Unit`: `some ()` = a live handle, `none` = the `null` of a
failed create. -/
structure ConsumerInfo where
  id : String
  subject : String
  createdAt : Nat
  subscription : Option Unit
  messageCount : Nat
deriving DecidableEq, Repr

/-- The `SUBJECTS` array (`src/simulator.ts` lines 28-35). -/
def SUBJECTS : List String :=
  ["events.sensor.station1.>",
   "events.sensor.station2.>",
   "events.sensor.station3.>",
   "events.telemetry.module1.>",
   "events.telemetry.module2.>",
   "events.>"]

/-- The string id `consumer_${consumerId}` of `runConsumerLoop`. -/
def consumerStringId (i : Nat) : String :=
  "consumer_" ++ toString i

/-- `SUBJECTS[consumerId % SUBJECTS.length]` (the index is always in
range, so the default is never used). -/
def slotSubject (i : Nat) : String :=
  SUBJECTS.getD (i % SUBJECTS.length) ""

/-- JavaScript `Map.set` on an association list: replace the (unique)
entry carrying the key in place, or append a fresh entry at the end. -/
def mapSet {α : Type} : List (Nat × α) → Nat → α → List (Nat × α)
  | [], k, v => [(k, v)]
  | p :: rest, k, v => if p.1 == k then (k, v) :: rest else p :: mapSet rest k v

/-- JavaScript `Map.delete` on an association list. -/
def mapDelete {α : Type} : List (Nat × α) → Nat → List (Nat × α)
  | [], _ => []
  | p :: rest, k => if p.1 == k then rest else p :: mapDelete rest k

/-- JavaScript `Map.get` on an association list. -/
def mapGet? {α : Type} : List (Nat × α) → Nat → Option α
  | [], _ => none
  | p :: rest, k => if p.1 == k then some p.2 else mapGet? rest k

/-- The keys of an association list. -/
def keys {α : Type} (m : List (Nat × α)) : List Nat :=
  m.map Prod.fst

/-- The program counter of one `runConsumerLoop` instance, cut at the
`await` suspension points of `src/simulator.ts` lines 129-140. -/
inductive SlotPhase where
  /-- Suspended in `await js.subscribe(...)` inside
  `createOrderedConsumer` (called from the top of the `while` body). -/
  | creating
  /-- Suspended in `await sleep(CONSUMER_LIFETIME_MS)`.  `hasSub` records
  whether `info.subscription` is non-null (the create succeeded). -/
  | running (hasSub : Bool)
  /-- Suspended in `await info.subscription.destroy()` inside
  `closeConsumer` (only reached when the subscription is non-null). -/
  | destroying
  /-- Suspended in `await sleep(RECONNECT_DELAY_MS)`. -/
  | cooldown
deriving DecidableEq, Repr

/-- The shared mutable state of the consumer simulator: the module-level
registry and counters of `src/simulator.ts` lines 20-24, plus the phase
of each slot's loop (`phases[i]` is slot `i`'s program counter) and a
count of the throttled `console.error` calls of `createOrderedConsumer`. -/
structure SimState where
  phases : List SlotPhase
  activeConsumers : List (Nat × ConsumerInfo)
  totalCreated : Nat
  totalClosed : Nat
  totalReconnects : Nat
  createErrors : Nat
  errorLogCount : Nat
deriving DecidableEq, Repr

/-- One scheduler event: the resolution of the `await` some slot is
suspended on (with the outcome of the external call where there is one),
or one message handed to a slot's detached reader task. -/
inductive Act where
  /-- `js.subscribe` resolved (`ok = true`) or rejected (`ok = false`)
  for slot `i`; `t` is the `Date.now()` read when the cycle's
  `ConsumerInfo` was built. -/
  | createRes (i : Nat) (ok : Bool) (t : Nat)
  /-- The `sleep(CONSUMER_LIFETIME_MS)` timer of slot `i` fired. -/
  | lifetimeEnd (i : Nat)
  /-- `info.subscription.destroy()` resolved (`ok = true`) or rejected
  (`ok = false`) for slot `i`. -/
  | destroyRes (i : Nat) (ok : Bool)
  /-- The `sleep(RECONNECT_DELAY_MS)` timer of slot `i` fired. -/
  | cooldownEnd (i : Nat)
  /-- The detached `for await` reader of slot `i` received one message
  (`info.messageCount++`). -/
  | deliver (i : Nat)
deriving DecidableEq, Repr

/-- One atomic stretch of `runConsumerLoop` / `createOrderedConsumer` /
`closeConsumer` between two suspension points.  `none` means the act is
not enabled in the given state.

* `createRes`: the tail of `createOrderedConsumer` after `js.subscribe`
  settles — on success `totalCreated++` and the handle is stored, on
  failure `createErrors++` with the throttled `console.error`
  (`createErrors % 10 === 1` after the increment) — followed in the same
  turn by `activeConsumers.set(id, info)` in `runConsumerLoop` (the
  `info` is registered even when the create failed and its
  `subscription` is `null`).
* `lifetimeEnd`: the lifetime sleep fires.  With a non-null subscription
  the loop next suspends inside `subscription.destroy()`.  With a null
  subscription `closeConsumer` is a no-op, so in the same turn the entry
  is deleted and `totalReconnects++`.
* `destroyRes`: the tail of `closeConsumer` — `totalClosed++` only when
  `destroy()` resolved, a rejection is swallowed by the empty `catch` —
  followed in the same turn by `activeConsumers.delete(id)` and
  `totalReconnects++` in `runConsumerLoop`.
* `cooldownEnd`: the cooldown sleep fires and the loop re-enters
  `createOrderedConsumer`, suspending in `js.subscribe`.
* `deliver`: the detached reader bumps `messageCount` on the registered
  `ConsumerInfo` (the registry holds the same object reference). -/
def step (s : SimState) (a : Act) : Option SimState :=
  match a with
  | .createRes i ok t =>
    match s.phases[i]? with
    | some .creating =>
      let info : ConsumerInfo :=
        { id := consumerStringId i
          subject := slotSubject i
          createdAt := t
          subscription := if ok then some () else none
          messageCount := 0 }
      some { s with
        phases := s.phases.set i (.running ok)
        activeConsumers := mapSet s.activeConsumers i info
        totalCreated := if ok then s.totalCreated + 1 else s.totalCreated
        createErrors := if ok then s.createErrors else s.createErrors + 1
        errorLogCount :=
          if !ok && (s.createErrors + 1) % 10 == 1 then s.errorLogCount + 1
          else s.errorLogCount }
    | _ => none
  | .lifetimeEnd i =>
    match s.phases[i]? with
    | some (.running true) =>
      some { s with phases := s.phases.set i .destroying }
    | some (.running false) =>
      some { s with
        phases := s.phases.set i .cooldown
        activeConsumers := mapDelete s.activeConsumers i
        totalReconnects := s.totalReconnects + 1 }
    | _ => none
  | .destroyRes i ok =>
    match s.phases[i]? with
    | some .destroying =>
      some { s with
        phases := s.phases.set i .cooldown
        activeConsumers := mapDelete s.activeConsumers i
        totalClosed := if ok then s.totalClosed + 1 else s.totalClosed
        totalReconnects := s.totalReconnects + 1 }
    | _ => none
  | .cooldownEnd i =>
    match s.phases[i]? with
    | some .cooldown =>
      some { s with phases := s.phases.set i .creating }
    | _ => none
  | .deliver i =>
    match mapGet? s.activeConsumers i with
    | some info =>
      match info.subscription with
      | some _ =>
        some { s with
          activeConsumers :=
            mapSet s.activeConsumers i { info with messageCount := info.messageCount + 1 } }
      | none => none
    | none => none

/-- The state after `main` has started `n` consumer loops: every loop has
entered `createOrderedConsumer` and suspends in `js.subscribe`; registry
empty, all counters zero (`src/simulator.ts` lines 20-24, 242-246). -/
def initState (n : Nat) : SimState :=
  { phases := List.replicate n .creating
    activeConsumers := []
    totalCreated := 0
    totalClosed := 0
    totalReconnects := 0
    createErrors := 0
    errorLogCount := 0 }

/-- Run a sequence of scheduler events from a state. -/
def run (s : SimState) : List Act → Option SimState
  | [] => some s
  | a :: acts =>
    match step s a with
    | some s' => run s' acts
    | none => none

/-- The `leaked` figure computed by `printStats`
(`src/simulator.ts` line 182):
`totalCreated - totalClosed - activeConsumers.size`. -/
def leaked (s : SimState) : Int :=
  (s.totalCreated : Int) - (s.totalClosed : Int) - (s.activeConsumers.length : Int)

/-- A slot phase during which the slot's id is a key of
`activeConsumers` (between the `set` of its cycle and the `delete`). -/
def slotRegistered : SlotPhase → Bool
  | .running _ => true
  | .destroying => true
  | _ => false

/-- A slot phase holding a live (successfully created, not yet
destroy-resolved) subscription. -/
def slotLive : SlotPhase → Bool
  | .running true => true
  | .destroying => true
  | _ => false

/-- An act whose external call (if any) succeeds. -/
def Act.allOk : Act → Bool
  | .createRes _ ok _ => ok
  | .destroyRes _ ok => ok
  | _ => true

/-- The global invariant of the consumer simulator with `n` slots:
the registry holds exactly one entry per slot whose loop is between the
`activeConsumers.set` and the `activeConsumers.delete` of its current
cycle, and the counters dominate the live subscriptions. -/
structure Inv (n : Nat) (s : SimState) : Prop where
  phases_len : s.phases.length = n
  nodup : (keys s.activeConsumers).Nodup
  mem_reg : ∀ k, k ∈ keys s.activeConsumers ↔
    ∃ p, s.phases[k]? = some p ∧ slotRegistered p = true
  len_eq : s.activeConsumers.length = s.phases.countP slotRegistered
  counter : s.totalClosed + s.phases.countP slotLive ≤ s.totalCreated

/-- The strengthening of `Inv` that holds along executions in which every
`js.subscribe` and every `subscription.destroy` call succeeds. -/
structure InvOk (n : Nat) (s : SimState) extends Inv n s : Prop where
  no_fail : ∀ p ∈ s.phases, p ≠ SlotPhase.running false
  counter_eq : s.totalCreated = s.totalClosed + s.phases.countP slotLive


/-- Scenario state for the C1 witness: one slot, successful create
(`t = 5`), lifetime elapsed, suspended in `destroy()`. -/
def c1Mid : SimState :=
  (run (initState 1) [Act.createRes 0 true 5, Act.lifetimeEnd 0]).getD (initState 1)

/-- Scenario state for the C1 witness: the state after the `destroy()`
call of `c1Mid` rejects. -/
def c1End : SimState :=
  (step c1Mid (Act.destroyRes 0 false)).getD (initState 1)

/-- Scenario state for the C2 witness: one slot, successful create
(`t = 6`), lifetime elapsed, suspended in `destroy()`. -/
def c2Mid : SimState :=
  (run (initState 1) [Act.createRes 0 true 6, Act.lifetimeEnd 0]).getD (initState 1)

/-- Scenario state for the C2 witness: the state after the `destroy()`
call of `c2Mid` resolves successfully. -/
def c2End : SimState :=
  (step c2Mid (Act.destroyRes 0 true)).getD (initState 1)

/-- Scenario state for the C4 witness: one slot about to resolve its
`js.subscribe`, with one earlier create failure already counted (so the
next failure is the second and must not be logged). -/
def c4Start : SimState :=
  { initState 1 with createErrors := 1 }

/-- Scenario state for the C4 witness: the state after the
`js.subscribe` of `c4Start` rejects. -/
def c4After : SimState :=
  (step c4Start (Act.createRes 0 false 0)).getD (initState 1)

/-- Scenario state for the C5 witness: two slots, both creates
succeeded. -/
def c5End : SimState :=
  (run (initState 2) [Act.createRes 0 true 3, Act.createRes 1 true 3]).getD (initState 2)

/-- Scenario state for the C6 witness: one full cycle whose `destroy()`
rejected (so `totalCreated = 1 > totalClosed = 0`). -/
def c6End : SimState :=
  (run (initState 1)
    [Act.createRes 0 true 2, Act.lifetimeEnd 0, Act.destroyRes 0 false]).getD (initState 1)

/-- Scenario state for the C7 witness: one fully successful cycle. -/
def c7End : SimState :=
  (run (initState 1)
    [Act.createRes 0 true 4, Act.lifetimeEnd 0, Act.destroyRes 0 true]).getD (initState 1)

/-- C10 scenario, observation 1: slot 0's create failed, slot 1's
succeeded; both entries (one with a `null` subscription) are in the
registry. -/
def c10S1 : SimState :=
  (run (initState 2) [Act.createRes 0 false 7, Act.createRes 1 true 7]).getD (initState 2)

/-- C10 scenario, observation 2: slot 1 has completed its whole cycle
(destroy succeeded, cooldown over) while slot 0 still sleeps through its
lifetime with the `null`-subscription entry registered. -/
def c10S2 : SimState :=
  (run (initState 2)
    [Act.createRes 0 false 7, Act.createRes 1 true 7, Act.lifetimeEnd 1,
     Act.destroyRes 1 true, Act.cooldownEnd 1]).getD (initState 2)

/-- C10 scenario, observation 3: slot 0's lifetime has also elapsed; in
the DESTROYING step `closeConsumer` no-ops on the `null` subscription and
the loop deletes the entry. -/
def c10S3 : SimState :=
  (run (initState 2)
    [Act.createRes 0 false 7, Act.createRes 1 true 7, Act.lifetimeEnd 1,
     Act.destroyRes 1 true, Act.cooldownEnd 1, Act.lifetimeEnd 0]).getD (initState 2)

/-! ### Association-list lemmas -/

@[simp]
theorem keys_nil {α : Type} : keys ([] : List (Nat × α)) = [] := rfl

@[simp]
theorem keys_cons {α : Type} (p : Nat × α) (rest : List (Nat × α)) :
    keys (p :: rest) = p.1 :: keys rest := rfl

theorem keys_mapSet_of_mem {α : Type} {m : List (Nat × α)} {k : Nat} (v : α)
    (h : k ∈ keys m) : keys (mapSet m k v) = keys m := by
  induction m with
  | nil => simp at h
  | cons p rest ih =>
    by_cases hpk : p.1 = k
    · simp [mapSet, hpk]
    · have hk : k ∈ keys rest := by
        rcases List.mem_cons.mp (by simpa using h) with h' | h'
        · exact absurd h'.symm hpk
        · exact h'
      simp [mapSet, hpk, ih hk]

theorem keys_mapSet_of_not_mem {α : Type} {m : List (Nat × α)} {k : Nat} (v : α)
    (h : k ∉ keys m) : keys (mapSet m k v) = keys m ++ [k] := by
  induction m with
  | nil => simp [mapSet]
  | cons p rest ih =>
    have hpk : p.1 ≠ k := fun he => h (by simp [he])
    have hk : k ∉ keys rest := fun hm => h (by simp [hm])
    simp [mapSet, hpk, ih hk]

theorem length_mapSet_of_mem {α : Type} {m : List (Nat × α)} {k : Nat} (v : α)
    (h : k ∈ keys m) : (mapSet m k v).length = m.length := by
  induction m with
  | nil => simp at h
  | cons p rest ih =>
    by_cases hpk : p.1 = k
    · simp [mapSet, hpk]
    · have hk : k ∈ keys rest := by
        rcases List.mem_cons.mp (by simpa using h) with h' | h'
        · exact absurd h'.symm hpk
        · exact h'
      simp [mapSet, hpk, ih hk]

theorem length_mapSet_of_not_mem {α : Type} {m : List (Nat × α)} {k : Nat} (v : α)
    (h : k ∉ keys m) : (mapSet m k v).length = m.length + 1 := by
  induction m with
  | nil => simp [mapSet]
  | cons p rest ih =>
    have hpk : p.1 ≠ k := fun he => h (by simp [he])
    have hk : k ∉ keys rest := fun hm => h (by simp [hm])
    simp [mapSet, hpk, ih hk]

theorem mapDelete_of_not_mem {α : Type} {m : List (Nat × α)} {k : Nat}
    (h : k ∉ keys m) : mapDelete m k = m := by
  induction m with
  | nil => simp [mapDelete]
  | cons p rest ih =>
    have hpk : p.1 ≠ k := fun he => h (by simp [he])
    have hk : k ∉ keys rest := fun hm => h (by simp [hm])
    simp [mapDelete, hpk, ih hk]

theorem length_mapDelete_of_mem {α : Type} {m : List (Nat × α)} {k : Nat}
    (h : k ∈ keys m) : (mapDelete m k).length + 1 = m.length := by
  induction m with
  | nil => simp at h
  | cons p rest ih =>
    by_cases hpk : p.1 = k
    · simp [mapDelete, hpk]
    · have hk : k ∈ keys rest := by
        rcases List.mem_cons.mp (by simpa using h) with h' | h'
        · exact absurd h'.symm hpk
        · exact h'
      simp [mapDelete, hpk, ih hk]

theorem mem_keys_mapDelete {α : Type} {m : List (Nat × α)} {k k' : Nat}
    (hnd : (keys m).Nodup) :
    (k' ∈ keys (mapDelete m k) ↔ k' ∈ keys m ∧ k' ≠ k) := by
  induction m with
  | nil => simp [mapDelete]
  | cons p rest ih =>
    rw [keys_cons, List.nodup_cons] at hnd
    by_cases hpk : p.1 = k
    · subst hpk
      simp only [mapDelete, beq_self_eq_true, if_true, keys_cons, List.mem_cons]
      constructor
      · intro hm
        refine ⟨Or.inr hm, fun he => ?_⟩
        subst he
        exact hnd.1 hm
      · rintro ⟨hm | hm, hne⟩
        · exact absurd hm hne
        · exact hm
    · simp only [mapDelete, beq_iff_eq, hpk, if_false, keys_cons, List.mem_cons, ih hnd.2]
      constructor
      · rintro (h | ⟨hm, hne⟩)
        · subst h
          exact ⟨Or.inl rfl, hpk⟩
        · exact ⟨Or.inr hm, hne⟩
      · rintro ⟨h | hm, hne⟩
        · exact Or.inl h
        · exact Or.inr ⟨hm, hne⟩

theorem nodup_keys_mapDelete {α : Type} {m : List (Nat × α)} {k : Nat}
    (hnd : (keys m).Nodup) : (keys (mapDelete m k)).Nodup := by
  induction m with
  | nil => simp [mapDelete]
  | cons p rest ih =>
    rw [keys_cons, List.nodup_cons] at hnd
    by_cases hpk : p.1 = k
    · simp only [mapDelete, hpk, beq_self_eq_true, if_true]
      exact hnd.2
    · simp only [mapDelete, beq_iff_eq, hpk, if_false, keys_cons, List.nodup_cons]
      refine ⟨fun hm => ?_, ih hnd.2⟩
      rw [mem_keys_mapDelete hnd.2] at hm
      exact hnd.1 hm.1

theorem mapGet?_mapSet_self {α : Type} (m : List (Nat × α)) (k : Nat) (v : α) :
    mapGet? (mapSet m k v) k = some v := by
  induction m with
  | nil => simp [mapSet, mapGet?]
  | cons p rest ih =>
    by_cases hpk : p.1 = k
    · simp [mapSet, mapGet?, hpk]
    · simp [mapSet, mapGet?, hpk, ih]

theorem mapGet?_mapSet_ne {α : Type} (m : List (Nat × α)) {k k' : Nat} (v : α)
    (h : k' ≠ k) : mapGet? (mapSet m k v) k' = mapGet? m k' := by
  have h' : ¬(k = k') := fun he => h he.symm
  induction m with
  | nil => simp [mapSet, mapGet?, h']
  | cons p rest ih =>
    by_cases hpk : p.1 = k
    · simp [mapSet, mapGet?, hpk, h']
    · by_cases hpk' : p.1 = k'
      · simp [mapSet, mapGet?, hpk, hpk', h]
      · simp [mapSet, mapGet?, hpk, hpk', ih]

theorem mapGet?_isSome_iff {α : Type} (m : List (Nat × α)) (k : Nat) :
    (mapGet? m k).isSome = true ↔ k ∈ keys m := by
  induction m with
  | nil => simp [mapGet?]
  | cons p rest ih =>
    by_cases hpk : p.1 = k
    · simp [mapGet?, hpk]
    · have hpk' : ¬(k = p.1) := fun he => hpk he.symm
      simp [mapGet?, hpk, hpk', ih]

theorem mem_keys_of_mapGet?_eq_some {α : Type} {m : List (Nat × α)} {k : Nat} {v : α}
    (h : mapGet? m k = some v) : k ∈ keys m := by
  rw [← mapGet?_isSome_iff, h]
  rfl

/-! ### `List.set` and `countP` helpers -/

theorem countP_set {β : Type} (q : β → Bool) (l : List β) (i : Nat) (a b : β)
    (h : l[i]? = some b) :
    (l.set i a).countP q + (if q b then 1 else 0) = l.countP q + (if q a then 1 else 0) := by
  induction l generalizing i with
  | nil => simp at h
  | cons x xs ih =>
    cases i with
    | zero =>
      simp at h
      subst h
      simp [List.countP_cons]
      omega
    | succ n =>
      simp at h
      have := ih n h
      simp [List.countP_cons, List.set]
      omega

theorem countP_replicate_false {β : Type} (q : β → Bool) (n : Nat) (a : β)
    (h : q a = false) : (List.replicate n a).countP q = 0 := by
  induction n with
  | zero => simp
  | succ n ih => simp [List.replicate_succ, List.countP_cons, h, ih]




@[simp] theorem slotRegistered_creating : slotRegistered .creating = false := rfl
@[simp] theorem slotRegistered_running (b : Bool) : slotRegistered (.running b) = true := rfl
@[simp] theorem slotRegistered_destroying : slotRegistered .destroying = true := rfl
@[simp] theorem slotRegistered_cooldown : slotRegistered .cooldown = false := rfl
@[simp] theorem slotLive_creating : slotLive .creating = false := rfl
@[simp] theorem slotLive_running (b : Bool) : slotLive (.running b) = b := by cases b <;> rfl
@[simp] theorem slotLive_destroying : slotLive .destroying = true := rfl
@[simp] theorem slotLive_cooldown : slotLive .cooldown = false := rfl

theorem getElem?_set_self' {β : Type} (l : List β) (i : Nat) (a : β) (h : i < l.length) :
    (l.set i a)[i]? = some a := List.getElem?_set_self h

theorem inv_init (n : Nat) : Inv n (initState n) := by
  constructor
  · simp [initState]
  · simp [initState]
  · intro k
    simp only [initState, keys_nil, List.mem_nil_iff, false_iff]
    rintro ⟨p, hp, hreg⟩
    rw [List.getElem?_replicate] at hp
    by_cases hk : k < n
    · simp [hk] at hp
      subst hp
      simp at hreg
    · simp [hk] at hp
  · simp only [initState]
    rw [countP_replicate_false slotRegistered n SlotPhase.creating rfl]
    rfl
  · simp only [initState]
    rw [countP_replicate_false slotLive n SlotPhase.creating rfl]

theorem inv_step {n : Nat} {s s' : SimState} {a : Act}
    (hstep : step s a = some s') (hinv : Inv n s) : Inv n s' := by
  obtain ⟨hlen, hnd, hmem, hcnt, hctr⟩ := hinv
  cases a with
  | createRes i ok t =>
    simp only [step] at hstep
    cases hph : s.phases[i]? with
    | none => rw [hph] at hstep; exact absurd hstep (by simp)
    | some p =>
      rw [hph] at hstep
      cases p with
      | creating =>
        simp only [Option.some.injEq] at hstep
        subst hstep
        have hilt : i < s.phases.length := (List.getElem?_eq_some.mp hph).1
        have hik : i ∉ keys s.activeConsumers := by
          intro hk
          rcases (hmem i).mp hk with ⟨p, hp, hreg⟩
          rw [hph] at hp
          cases hp
          simp at hreg
        have hreg_cnt := countP_set slotRegistered s.phases i (.running ok) _ hph
        have hlive_cnt := countP_set slotLive s.phases i (.running ok) _ hph
        simp only [slotRegistered_creating, slotRegistered_running, slotLive_creating,
          slotLive_running] at hreg_cnt hlive_cnt
        simp at hreg_cnt hlive_cnt
        constructor
        · simpa using hlen
        · rw [keys_mapSet_of_not_mem _ hik]
          simp [List.nodup_append, hnd, hik]
        · intro k
          rw [keys_mapSet_of_not_mem _ hik]
          by_cases hk : k = i
          · subst hk
            simp only [List.mem_append, List.mem_singleton, or_true, true_iff]
            refine ⟨.running ok, ?_, by simp⟩
            exact getElem?_set_self' _ _ _ hilt
          · simp only [List.mem_append, List.mem_singleton, hk, or_false]
            rw [hmem k]
            rw [List.getElem?_set_ne (fun he => hk he.symm)]
        · simp only
          rw [length_mapSet_of_not_mem _ hik]
          omega
        · simp only
          cases ok <;> simp at hlive_cnt ⊢ <;> omega
      | running b => cases b <;> simp at hstep
      | destroying => simp at hstep
      | cooldown => simp at hstep
  | lifetimeEnd i =>
    simp only [step] at hstep
    cases hph : s.phases[i]? with
    | none => rw [hph] at hstep; exact absurd hstep (by simp)
    | some p =>
      rw [hph] at hstep
      cases p with
      | creating => simp at hstep
      | destroying => simp at hstep
      | cooldown => simp at hstep
      | running b =>
        have hilt : i < s.phases.length := (List.getElem?_eq_some.mp hph).1
        cases b with
        | true =>
          simp only [Option.some.injEq] at hstep
          subst hstep
          have hreg_cnt := countP_set slotRegistered s.phases i .destroying _ hph
          have hlive_cnt := countP_set slotLive s.phases i .destroying _ hph
          simp at hreg_cnt hlive_cnt
          constructor
          · simpa using hlen
          · exact hnd
          · intro k
            by_cases hk : k = i
            · subst hk
              simp only [getElem?_set_self' _ _ _ hilt, Option.some.injEq]
              constructor
              · intro _
                exact ⟨.destroying, rfl, rfl⟩
              · intro _
                exact (hmem k).mpr ⟨.running true, hph, rfl⟩
            · rw [List.getElem?_set_ne (fun he => hk he.symm)]
              exact hmem k
          · simp only
            omega
          · simp only
            omega
        | false =>
          simp only [Option.some.injEq] at hstep
          subst hstep
          have hik : i ∈ keys s.activeConsumers := (hmem i).mpr ⟨.running false, hph, rfl⟩
          have hreg_cnt := countP_set slotRegistered s.phases i .cooldown _ hph
          have hlive_cnt := countP_set slotLive s.phases i .cooldown _ hph
          simp at hreg_cnt hlive_cnt
          have hdel := length_mapDelete_of_mem (m := s.activeConsumers) hik
          constructor
          · simpa using hlen
          · exact nodup_keys_mapDelete hnd
          · intro k
            by_cases hk : k = i
            · subst hk
              simp [mem_keys_mapDelete hnd, getElem?_set_self' _ _ _ hilt]
            · rw [List.getElem?_set_ne (fun he => hk he.symm), mem_keys_mapDelete hnd]
              simp only [hk, ne_eq, not_false_iff, and_true]
              exact hmem k
          · simp only
            omega
          · simp only
            omega
  | destroyRes i ok =>
    simp only [step] at hstep
    cases hph : s.phases[i]? with
    | none => rw [hph] at hstep; exact absurd hstep (by simp)
    | some p =>
      rw [hph] at hstep
      cases p with
      | creating => simp at hstep
      | running b => cases b <;> simp at hstep
      | cooldown => simp at hstep
      | destroying =>
        simp only [Option.some.injEq] at hstep
        subst hstep
        have hilt : i < s.phases.length := (List.getElem?_eq_some.mp hph).1
        have hik : i ∈ keys s.activeConsumers := (hmem i).mpr ⟨.destroying, hph, rfl⟩
        have hreg_cnt := countP_set slotRegistered s.phases i .cooldown _ hph
        have hlive_cnt := countP_set slotLive s.phases i .cooldown _ hph
        simp at hreg_cnt hlive_cnt
        have hdel := length_mapDelete_of_mem (m := s.activeConsumers) hik
        constructor
        · simpa using hlen
        · exact nodup_keys_mapDelete hnd
        · intro k
          by_cases hk : k = i
          · subst hk
            simp [mem_keys_mapDelete hnd, getElem?_set_self' _ _ _ hilt]
          · rw [List.getElem?_set_ne (fun he => hk he.symm), mem_keys_mapDelete hnd]
            simp only [hk, ne_eq, not_false_iff, and_true]
            exact hmem k
        · simp only
          omega
        · simp only
          cases ok <;> simp <;> omega
  | cooldownEnd i =>
    simp only [step] at hstep
    cases hph : s.phases[i]? with
    | none => rw [hph] at hstep; exact absurd hstep (by simp)
    | some p =>
      rw [hph] at hstep
      cases p with
      | creating => simp at hstep
      | running b => cases b <;> simp at hstep
      | destroying => simp at hstep
      | cooldown =>
        simp only [Option.some.injEq] at hstep
        subst hstep
        have hilt : i < s.phases.length := (List.getElem?_eq_some.mp hph).1
        have hreg_cnt := countP_set slotRegistered s.phases i .creating _ hph
        have hlive_cnt := countP_set slotLive s.phases i .creating _ hph
        simp at hreg_cnt hlive_cnt
        constructor
        · simpa using hlen
        · exact hnd
        · intro k
          by_cases hk : k = i
          · subst hk
            simp only [getElem?_set_self' _ _ _ hilt, Option.some.injEq]
            constructor
            · intro hkm
              rcases (hmem k).mp hkm with ⟨p, hp, hreg⟩
              rw [hph] at hp
              cases hp
              simp at hreg
            · rintro ⟨p, hp, hreg⟩
              subst hp
              simp at hreg
          · rw [List.getElem?_set_ne (fun he => hk he.symm)]
            exact hmem k
        · simp only
          omega
        · simp only
          omega
  | deliver i =>
    simp only [step] at hstep
    cases hget : mapGet? s.activeConsumers i with
    | none => rw [hget] at hstep; exact absurd hstep (by simp)
    | some info =>
      rw [hget] at hstep
      cases hsub : info.subscription with
      | none => simp [hsub] at hstep
      | some u =>
        simp only [hsub, Option.some.injEq] at hstep
        subst hstep
        have hik : i ∈ keys s.activeConsumers := mem_keys_of_mapGet?_eq_some hget
        constructor
        · simpa using hlen
        · rw [keys_mapSet_of_mem _ hik]
          exact hnd
        · intro k
          rw [keys_mapSet_of_mem _ hik]
          exact hmem k
        · simp only
          rw [length_mapSet_of_mem _ hik]
          exact hcnt
        · exact hctr

theorem inv_run {n : Nat} {acts : List Act} {s s' : SimState}
    (hrun : run s acts = some s') (hinv : Inv n s) : Inv n s' := by
  induction acts generalizing s with
  | nil =>
    simp only [run, Option.some.injEq] at hrun
    subst hrun
    exact hinv
  | cons a acts ih =>
    simp only [run] at hrun
    cases hstep : step s a with
    | none => rw [hstep] at hrun; simp at hrun
    | some s1 =>
      rw [hstep] at hrun
      exact ih hrun (inv_step hstep hinv)

theorem invOk_init (n : Nat) : InvOk n (initState n) := by
  refine ⟨inv_init n, ?_, ?_⟩
  · intro p hp
    rw [List.eq_of_mem_replicate hp]
    simp
  · simp only [initState]
    rw [countP_replicate_false slotLive n SlotPhase.creating rfl]

theorem invOk_step {n : Nat} {s s' : SimState} {a : Act}
    (hstep : step s a = some s') (hok : a.allOk = true) (hinv : InvOk n s) : InvOk n s' := by
  refine ⟨inv_step hstep hinv.toInv, ?_, ?_⟩ <;>
  · cases a with
    | createRes i ok t =>
      simp only [Act.allOk] at hok
      subst hok
      simp only [step] at hstep
      cases hph : s.phases[i]? with
      | none => rw [hph] at hstep; simp at hstep
      | some p =>
        rw [hph] at hstep
        cases p with
        | creating =>
          simp only [Option.some.injEq] at hstep
          subst hstep
          have hlive_cnt := countP_set slotLive s.phases i (.running true) _ hph
          simp at hlive_cnt
          first
          | · intro p hp
              rcases List.mem_or_eq_of_mem_set hp with hp | hp
              · exact hinv.no_fail p hp
              · subst hp; simp
          | · have hceq := hinv.counter_eq
              simp only [eq_self_iff_true, if_true]
              omega
        | running b => cases b <;> simp at hstep
        | destroying => simp at hstep
        | cooldown => simp at hstep
    | lifetimeEnd i =>
      simp only [step] at hstep
      cases hph : s.phases[i]? with
      | none => rw [hph] at hstep; simp at hstep
      | some p =>
        rw [hph] at hstep
        cases p with
        | creating => simp at hstep
        | destroying => simp at hstep
        | cooldown => simp at hstep
        | running b =>
          cases b with
          | false =>
            exact absurd rfl (hinv.no_fail _ (List.getElem?_mem hph))
          | true =>
            simp only [Option.some.injEq] at hstep
            subst hstep
            have hlive_cnt := countP_set slotLive s.phases i .destroying _ hph
            simp at hlive_cnt
            first
            | · intro p hp
                rcases List.mem_or_eq_of_mem_set hp with hp | hp
                · exact hinv.no_fail p hp
                · subst hp; simp
            | · have hceq := hinv.counter_eq
                simp only [eq_self_iff_true, if_true]
                omega
    | destroyRes i ok =>
      simp only [Act.allOk] at hok
      subst hok
      simp only [step] at hstep
      cases hph : s.phases[i]? with
      | none => rw [hph] at hstep; simp at hstep
      | some p =>
        rw [hph] at hstep
        cases p with
        | creating => simp at hstep
        | running b => cases b <;> simp at hstep
        | cooldown => simp at hstep
        | destroying =>
          simp only [Option.some.injEq] at hstep
          subst hstep
          have hlive_cnt := countP_set slotLive s.phases i .cooldown _ hph
          simp at hlive_cnt
          first
          | · intro p hp
              rcases List.mem_or_eq_of_mem_set hp with hp | hp
              · exact hinv.no_fail p hp
              · subst hp; simp
          | · have hceq := hinv.counter_eq
              simp only [eq_self_iff_true, if_true]
              omega
    | cooldownEnd i =>
      simp only [step] at hstep
      cases hph : s.phases[i]? with
      | none => rw [hph] at hstep; simp at hstep
      | some p =>
        rw [hph] at hstep
        cases p with
        | creating => simp at hstep
        | running b => cases b <;> simp at hstep
        | destroying => simp at hstep
        | cooldown =>
          simp only [Option.some.injEq] at hstep
          subst hstep
          have hlive_cnt := countP_set slotLive s.phases i .creating _ hph
          simp at hlive_cnt
          first
          | · intro p hp
              rcases List.mem_or_eq_of_mem_set hp with hp | hp
              · exact hinv.no_fail p hp
              · subst hp; simp
          | · have hceq := hinv.counter_eq
              simp only [eq_self_iff_true, if_true]
              omega
    | deliver i =>
      simp only [step] at hstep
      cases hget : mapGet? s.activeConsumers i with
      | none => rw [hget] at hstep; simp at hstep
      | some info =>
        rw [hget] at hstep
        cases hsub : info.subscription with
        | none => simp [hsub] at hstep
        | some u =>
          simp only [hsub, Option.some.injEq] at hstep
          subst hstep
          first
          | exact hinv.no_fail
          | exact hinv.counter_eq

theorem invOk_run {n : Nat} {acts : List Act} {s s' : SimState}
    (hrun : run s acts = some s') (hoks : ∀ a ∈ acts, a.allOk = true)
    (hinv : InvOk n s) : InvOk n s' := by
  induction acts generalizing s with
  | nil =>
    simp only [run, Option.some.injEq] at hrun
    subst hrun
    exact hinv
  | cons a acts ih =>
    simp only [run] at hrun
    cases hstep : step s a with
    | none => rw [hstep] at hrun; simp at hrun
    | some s1 =>
      rw [hstep] at hrun
      exact ih hrun (fun b hb => hoks b (List.mem_cons_of_mem a hb))
        (invOk_step hstep (hoks a (List.mem_cons_self a acts)) hinv)

theorem countP_reg_eq_live_of_no_fail {l : List SlotPhase}
    (h : ∀ p ∈ l, p ≠ SlotPhase.running false) :
    l.countP slotRegistered = l.countP slotLive := by
  induction l with
  | nil => rfl
  | cons p rest ih =>
    have hrest := ih (fun q hq => h q (List.mem_cons_of_mem p hq))
    have hp : p ≠ SlotPhase.running false := h p (List.mem_cons_self p rest)
    cases p with
    | creating => simp [List.countP_cons, hrest]
    | destroying => simp [List.countP_cons, hrest]
    | cooldown => simp [List.countP_cons, hrest]
    | running b =>
      cases b with
      | true => simp [List.countP_cons, hrest]
      | false => exact absurd rfl hp

theorem waitForJetStreamLoop_first_success (probe : Nat → Bool) (fuel : Nat) :
    ∀ (i sleeps k : Nat), k < fuel → (∀ j, j < k → probe (i + j) = false) →
      probe (i + k) = true →
      waitForJetStreamLoop probe i fuel sleeps = (true, sleeps + k) := by
  induction fuel with
  | zero => intro i sleeps k hk _ _; exact absurd hk (Nat.not_lt_zero k)
  | succ fuel ih =>
    intro i sleeps k hk hbefore hsucc
    cases k with
    | zero =>
      have h0 : probe i = true := by simpa using hsucc
      simp [waitForJetStreamLoop, h0]
    | succ k1 =>
      have h0 : probe i = false := by simpa using hbefore 0 (Nat.succ_pos k1)
      have hrec := ih (i + 1) (sleeps + 1) k1 (by omega)
        (fun j hj => by
          have hb := hbefore (j + 1) (by omega)
          rwa [show i + (j + 1) = i + 1 + j by omega] at hb)
        (by rwa [show i + 1 + k1 = i + (k1 + 1) by omega])
      simp only [waitForJetStreamLoop, h0, Bool.false_eq_true, if_false]
      rw [hrec]
      congr 1
      omega

theorem waitForJetStreamLoop_all_fail (probe : Nat → Bool) (fuel : Nat) :
    ∀ (i sleeps : Nat), (∀ j, j < fuel → probe (i + j) = false) →
      waitForJetStreamLoop probe i fuel sleeps = (false, sleeps + fuel) := by
  induction fuel with
  | zero => intro i sleeps _; simp [waitForJetStreamLoop]
  | succ fuel ih =>
    intro i sleeps hall
    have h0 : probe i = false := by simpa using hall 0 (Nat.succ_pos fuel)
    have hrec := ih (i + 1) (sleeps + 1) (fun j hj => by
      have hb := hall (j + 1) (by omega)
      rwa [show i + (j + 1) = i + 1 + j by omega] at hb)
    simp only [waitForJetStreamLoop, h0, Bool.false_eq_true, if_false]
    rw [hrec]
    congr 1
    omega

theorem createStreamLoop_all_fail (outcomes : Nat → Option JsError) (fuel : Nat) :
    ∀ a : Nat, (∀ j, j < fuel → ∃ e, outcomes (a + j) = some e ∧ isAlreadyInUse e = false) →
      createStreamLoop outcomes a fuel = CreateStreamResult.retriesExhausted := by
  induction fuel with
  | zero => intro a _; rfl
  | succ fuel ih =>
    intro a hall
    obtain ⟨e, he, hne⟩ := hall 0 (Nat.succ_pos fuel)
    rw [Nat.add_zero] at he
    simp only [createStreamLoop, he, hne, Bool.false_eq_true, if_false]
    exact ih (a + 1) (fun j hj => by
      have hb := hall (j + 1) (by omega)
      rwa [show a + (j + 1) = a + 1 + j by omega] at hb)

theorem step_totalClosed_eq {s s' : SimState} {a : Act} (h : step s a = some s') :
    s'.totalClosed = s.totalClosed +
      (match a with | Act.destroyRes _ true => 1 | _ => 0) := by
  cases a with
  | createRes i ok t =>
    simp only [step] at h
    cases hph : s.phases[i]? with
    | none => rw [hph] at h; simp at h
    | some p =>
      rw [hph] at h
      cases p with
      | creating =>
        simp only [Option.some.injEq] at h
        subst h
        rfl
      | running b => cases b <;> simp at h
      | destroying => simp at h
      | cooldown => simp at h
  | lifetimeEnd i =>
    simp only [step] at h
    cases hph : s.phases[i]? with
    | none => rw [hph] at h; simp at h
    | some p =>
      rw [hph] at h
      cases p with
      | creating => simp at h
      | running b =>
        cases b <;> simp only [Option.some.injEq] at h <;> subst h <;> rfl
      | destroying => simp at h
      | cooldown => simp at h
  | destroyRes i ok =>
    simp only [step] at h
    cases hph : s.phases[i]? with
    | none => rw [hph] at h; simp at h
    | some p =>
      rw [hph] at h
      cases p with
      | creating => simp at h
      | running b => cases b <;> simp at h
      | destroying =>
        simp only [Option.some.injEq] at h
        subst h
        cases ok <;> rfl
      | cooldown => simp at h
  | cooldownEnd i =>
    simp only [step] at h
    cases hph : s.phases[i]? with
    | none => rw [hph] at h; simp at h
    | some p =>
      rw [hph] at h
      cases p with
      | creating => simp at h
      | running b => cases b <;> simp at h
      | destroying => simp at h
      | cooldown =>
        simp only [Option.some.injEq] at h
        subst h
        rfl
  | deliver i =>
    simp only [step] at h
    cases hget : mapGet? s.activeConsumers i with
    | none => rw [hget] at h; simp at h
    | some info =>
      rw [hget] at h
      cases hsub : info.subscription with
      | none => simp [hsub] at h
      | some u =>
        simp only [hsub, Option.some.injEq] at h
        subst h
        rfl

/-- **C8**: the readiness poller `waitForJetStream` returns `true` as
soon as the first probe invocation succeeds, having slept exactly once
between each pair of consecutive (failed) attempts before it; if all
`maxRetries` probe invocations fail it returns `false` without raising
(the model is a total function, so no exception path exists). -/
theorem c8_waitForJetStream_spec (probe : Nat → Bool) (maxRetries : Nat) :
    (∀ k, k < maxRetries → (∀ j, j < k → probe j = false) → probe k = true →
      waitForJetStream probe maxRetries = (true, k))
    ∧ ((∀ j, j < maxRetries → probe j = false) →
      waitForJetStream probe maxRetries = (false, maxRetries)) := by
  constructor
  · intro k hk hbefore hsucc
    have h := waitForJetStreamLoop_first_success probe maxRetries 0 0 k hk
      (fun j hj => by simpa using hbefore j hj) (by simpa using hsucc)
    simpa [waitForJetStream] using h
  · intro hall
    have h := waitForJetStreamLoop_all_fail probe maxRetries 0 0
      (fun j hj => by simpa using hall j hj)
    simpa [waitForJetStream] using h

/-- Witness for **C8**: a probe that first succeeds on attempt 2 makes
`waitForJetStream` return `(true, 2)`; an always-failing probe makes it
return `(false, 30)`. -/
theorem c8_waitForJetStream_spec_witness :
    waitForJetStream (fun j => j == 2) 30 = (true, 2)
    ∧ waitForJetStream (fun _ => false) 30 = (false, 30) :=
  ⟨(c8_waitForJetStream_spec (fun j => j == 2) 30).1 2 (by decide)
      (by decide) (by decide),
   (c8_waitForJetStream_spec (fun _ => false) 30).2 (fun j _ => rfl)⟩

/-- **C9**: stream provisioning is idempotent: when the `streams.add`
attempt raises the platform's "already exists" signal (message containing
"already in use" or code "10058"), `createStream` treats it as success and
returns normally at attempt 0 with no further retries — which is exactly
what a second call with an identical spec observes once the stream
exists. -/
theorem c9_createStream_idempotent (outcomes : Nat → Option JsError) (e : JsError)
    (h0 : outcomes 0 = some e) (he : isAlreadyInUse e = true) :
    createStream outcomes = CreateStreamResult.alreadyExists 0 := by
  simp [createStream, createStreamLoop, h0, he]

/-- Witness for **C9**: the NATS "stream name already in use" error on the
first attempt yields a normal return with zero retries. -/
theorem c9_createStream_idempotent_witness :
    createStream (fun _ => some { message := "stream name already in use", code := "10058" })
      = CreateStreamResult.alreadyExists 0 :=
  c9_createStream_idempotent _ { message := "stream name already in use", code := "10058" }
    rfl (by decide)

/-- **C3** (counterexample): the claim says exhausting the provisioning
retries propagates a `ProvisioningError` and terminates the process.  In
the code, `createStream` catches every error, and after 10 failed
attempts the loop simply falls through and the function returns normally
(`retriesExhausted` is a normal return, not a raised error); `main` never
inspects any provisioning result and proceeds to start the consumer
loops. -/
theorem c3_provisioning_counterexample :
    consumerMain (fun _ => true) (fun _ => some { message := "connection timeout", code := "err" })
      = MainOutcome.startedConsumerLoops CreateStreamResult.retriesExhausted := by
  decide

/-- **C3** (amended): if stream provisioning fails with a
non-"already exists" error on every one of its 10 attempts, `createStream`
returns normally (no error propagates — there is no `ProvisioningError`
in the code) and, provided the readiness poll succeeded, `main` proceeds
to start the consumer loops; the process does not terminate on
provisioning failure. -/
theorem c3_provisioning_exhaustion_amended (outcomes : Nat → Option JsError)
    (probe : Nat → Bool)
    (hfail : ∀ j, j < 10 → ∃ e, outcomes j = some e ∧ isAlreadyInUse e = false)
    (hready : (waitForJetStream probe 30).1 = true) :
    createStream outcomes = CreateStreamResult.retriesExhausted
    ∧ consumerMain probe outcomes
      = MainOutcome.startedConsumerLoops CreateStreamResult.retriesExhausted := by
  have h1 : createStream outcomes = CreateStreamResult.retriesExhausted :=
    createStreamLoop_all_fail outcomes 10 0 (fun j hj => by simpa using hfail j hj)
  refine ⟨h1, ?_⟩
  simp [consumerMain, hready, h1]

/-- Witness for the amended **C3**. -/
theorem c3_provisioning_exhaustion_amended_witness :
    createStream (fun _ => some { message := "boom", code := "500" })
      = CreateStreamResult.retriesExhausted
    ∧ consumerMain (fun _ => true) (fun _ => some { message := "boom", code := "500" })
      = MainOutcome.startedConsumerLoops CreateStreamResult.retriesExhausted :=
  c3_provisioning_exhaustion_amended _ _
    (fun _ _ => ⟨{ message := "boom", code := "500" }, rfl, rfl⟩) rfl

/-- **C2**: `totalClosed` is incremented by a scheduler step exactly when
that step is the resolution of a `destroy()` call that returned without
raising (`destroyRes _ true`, which is only enabled in the `destroying`
phase, i.e. on an existing subscription); when the destroy call raises
(`destroyRes _ false`) `totalClosed` is unchanged. -/
theorem c2_totalClosed_increment_iff_destroy_ok (s s' : SimState) (a : Act)
    (h : step s a = some s') :
    (s.totalClosed < s'.totalClosed ↔ ∃ i, a = Act.destroyRes i true)
    ∧ (∀ i, a = Act.destroyRes i false → s'.totalClosed = s.totalClosed) := by
  have he := step_totalClosed_eq h
  cases a with
  | createRes i ok t =>
    refine ⟨⟨fun hlt => absurd hlt (by simp at he; omega), ?_⟩, ?_⟩
    · rintro ⟨j, hj⟩
      exact absurd hj (by simp)
    · intro j hj
      exact absurd hj (by simp)
  | lifetimeEnd i =>
    refine ⟨⟨fun hlt => absurd hlt (by simp at he; omega), ?_⟩, ?_⟩
    · rintro ⟨j, hj⟩
      exact absurd hj (by simp)
    · intro j hj
      exact absurd hj (by simp)
  | cooldownEnd i =>
    refine ⟨⟨fun hlt => absurd hlt (by simp at he; omega), ?_⟩, ?_⟩
    · rintro ⟨j, hj⟩
      exact absurd hj (by simp)
    · intro j hj
      exact absurd hj (by simp)
  | deliver i =>
    refine ⟨⟨fun hlt => absurd hlt (by simp at he; omega), ?_⟩, ?_⟩
    · rintro ⟨j, hj⟩
      exact absurd hj (by simp)
    · intro j hj
      exact absurd hj (by simp)
  | destroyRes i ok =>
    cases ok with
    | true =>
      simp only at he
      refine ⟨⟨fun _ => ⟨i, rfl⟩, fun _ => by omega⟩, ?_⟩
      intro j hj
      simp at hj
    | false =>
      simp only at he
      refine ⟨⟨fun hlt => absurd hlt (by omega), ?_⟩, fun j _ => by omega⟩
      rintro ⟨j, hj⟩
      simp at hj


/-- **C1** (counterexample): one slot creates successfully (`totalCreated
= 1`), its lifetime ends, and the `destroy()` call raises.  The claim
says the registry entry is removed AND `totalClosed` is incremented
("destroy failures are swallowed and still counted as closed").  In the
resulting state the entry is indeed removed, but `totalClosed = 0`, not
`1`: in `closeConsumer` the `totalClosed++` sits inside the `try` after
`await info.subscription.destroy()`, so a raising destroy skips it. -/
theorem c1_destroy_failure_counted_counterexample :
    run (initState 1) [Act.createRes 0 true 5, Act.lifetimeEnd 0, Act.destroyRes 0 false]
      = some { phases := [SlotPhase.cooldown], activeConsumers := [],
               totalCreated := 1, totalClosed := 0, totalReconnects := 1,
               createErrors := 0, errorLogCount := 0 } := by
  decide

/-- **C1** (amended): in the DESTROYING step of a cycle with an active
subscription, whether the destroy call resolves or rejects, the slot's
entry is removed from `activeConsumers` (exactly one entry) and
`totalReconnects` is incremented; `totalClosed`, however, is incremented
only when the destroy call returns without raising — a rejected destroy
is swallowed but NOT counted as closed. -/
theorem c1_destroying_step_amended (n : Nat) (acts : List Act) (s s' : SimState)
    (i : Nat) (ok : Bool)
    (hreach : run (initState n) acts = some s)
    (h : step s (Act.destroyRes i ok) = some s') :
    i ∉ keys s'.activeConsumers
    ∧ s'.activeConsumers.length + 1 = s.activeConsumers.length
    ∧ s'.totalReconnects = s.totalReconnects + 1
    ∧ s'.totalClosed = (if ok then s.totalClosed + 1 else s.totalClosed) := by
  have hinv : Inv n s := inv_run hreach (inv_init n)
  simp only [step] at h
  cases hph : s.phases[i]? with
  | none => rw [hph] at h; simp at h
  | some p =>
    rw [hph] at h
    cases p with
    | creating => simp at h
    | running b => cases b <;> simp at h
    | cooldown => simp at h
    | destroying =>
      simp only [Option.some.injEq] at h
      subst h
      have hik : i ∈ keys s.activeConsumers :=
        (hinv.mem_reg i).mpr ⟨.destroying, hph, rfl⟩
      refine ⟨?_, length_mapDelete_of_mem hik, rfl, rfl⟩
      intro hm
      rw [mem_keys_mapDelete hinv.nodup] at hm
      exact hm.2 rfl

/-- Witness for the amended **C1**, at the concrete scenario where the
destroy call rejects. -/
theorem c1_destroying_step_amended_witness :
    0 ∉ keys c1End.activeConsumers
    ∧ c1End.activeConsumers.length + 1 = c1Mid.activeConsumers.length
    ∧ c1End.totalReconnects = c1Mid.totalReconnects + 1
    ∧ c1End.totalClosed = (if false then c1Mid.totalClosed + 1 else c1Mid.totalClosed) :=
  c1_destroying_step_amended 1 [Act.createRes 0 true 5, Act.lifetimeEnd 0]
    c1Mid c1End 0 false rfl rfl

/-- Witness for **C2**, at the concrete scenario where the destroy call
resolves successfully. -/
theorem c2_totalClosed_increment_iff_destroy_ok_witness :
    (c2Mid.totalClosed < c2End.totalClosed ↔ ∃ i, Act.destroyRes 0 true = Act.destroyRes i true)
    ∧ (∀ i, Act.destroyRes 0 true = Act.destroyRes i false →
        c2End.totalClosed = c2Mid.totalClosed) :=
  c2_totalClosed_increment_iff_destroy_ok c2Mid c2End (Act.destroyRes 0 true) rfl

/-- **C4**: when the `js.subscribe` of a cycle rejects, `createErrors` is
incremented while `totalCreated` is not; the `console.error` is emitted
only at the throttled rate (only when the incremented counter is ≡ 1 mod
10, not on every failure); the slot's registered `ConsumerInfo` for the
cycle carries `subscription = null`; and the slot cannot re-enter a
create for this cycle: the only way forward is the lifetime timer, after
which it proceeds to COOLDOWN with `totalCreated` and `createErrors`
untouched. -/
theorem c4_create_failure_behavior (s s' : SimState) (i t : Nat)
    (h : step s (Act.createRes i false t) = some s') :
    s'.createErrors = s.createErrors + 1
    ∧ s'.totalCreated = s.totalCreated
    ∧ s'.errorLogCount =
        (if (s.createErrors + 1) % 10 == 1 then s.errorLogCount + 1 else s.errorLogCount)
    ∧ mapGet? s'.activeConsumers i
        = some { id := consumerStringId i, subject := slotSubject i, createdAt := t,
                 subscription := none, messageCount := 0 }
    ∧ s'.phases[i]? = some (SlotPhase.running false)
    ∧ (∀ ok t2, step s' (Act.createRes i ok t2) = none)
    ∧ (∀ s2, step s' (Act.lifetimeEnd i) = some s2 →
        s2.phases[i]? = some SlotPhase.cooldown
        ∧ s2.totalCreated = s'.totalCreated
        ∧ s2.createErrors = s'.createErrors) := by
  simp only [step] at h
  cases hph : s.phases[i]? with
  | none => rw [hph] at h; simp at h
  | some p =>
    rw [hph] at h
    cases p with
    | running b => cases b <;> simp at h
    | destroying => simp at h
    | cooldown => simp at h
    | creating =>
      simp only [Option.some.injEq] at h
      subst h
      have hilt : i < s.phases.length := (List.getElem?_eq_some.mp hph).1
      have hp2 : (s.phases.set i (SlotPhase.running false))[i]?
          = some (SlotPhase.running false) := getElem?_set_self' _ _ _ hilt
      refine ⟨rfl, rfl, rfl, mapGet?_mapSet_self _ _ _, hp2, ?_, ?_⟩
      · intro ok t2
        simp [step, hp2]
      · intro s2 h2
        simp only [step, hp2] at h2
        simp only [Option.some.injEq] at h2
        subst h2
        refine ⟨?_, rfl, rfl⟩
        exact getElem?_set_self' _ _ _ (by simpa using hilt)

/-- Witness for **C4**: the scenario has one earlier create failure
already counted, so this (second) failure must not log — the condition
`(1 + 1) % 10 == 1` is false. -/
theorem c4_create_failure_behavior_witness :
    c4After.createErrors = c4Start.createErrors + 1
    ∧ c4After.totalCreated = c4Start.totalCreated
    ∧ c4After.errorLogCount =
        (if (c4Start.createErrors + 1) % 10 == 1 then c4Start.errorLogCount + 1
         else c4Start.errorLogCount)
    ∧ mapGet? c4After.activeConsumers 0
        = some { id := consumerStringId 0, subject := slotSubject 0, createdAt := 0,
                 subscription := none, messageCount := 0 }
    ∧ c4After.phases[0]? = some (SlotPhase.running false)
    ∧ (∀ ok t2, step c4After (Act.createRes 0 ok t2) = none)
    ∧ (∀ s2, step c4After (Act.lifetimeEnd 0) = some s2 →
        s2.phases[0]? = some SlotPhase.cooldown
        ∧ s2.totalCreated = c4After.totalCreated
        ∧ s2.createErrors = c4After.createErrors) :=
  c4_create_failure_behavior c4Start c4After 0 0 rfl

/-- **C5**: at every reachable state of the interleaved execution with
`n` slots, the registry `activeConsumers` has at most `n` entries, and at
most one entry per slot id. -/
theorem c5_registry_at_most_n_entries (n : Nat) (acts : List Act) (s : SimState)
    (h : run (initState n) acts = some s) :
    s.activeConsumers.length ≤ n ∧ (keys s.activeConsumers).Nodup := by
  have hinv : Inv n s := inv_run h (inv_init n)
  have h1 := hinv.len_eq
  have h2 : s.phases.countP slotRegistered ≤ s.phases.length :=
    List.countP_le_length _
  have h3 := hinv.phases_len
  exact ⟨by omega, hinv.nodup⟩

/-- Witness for **C5**. -/
theorem c5_registry_at_most_n_entries_witness :
    c5End.activeConsumers.length ≤ 2 ∧ (keys c5End.activeConsumers).Nodup :=
  c5_registry_at_most_n_entries 2 [Act.createRes 0 true 3, Act.createRes 1 true 3] c5End rfl

/-- **C6**: at every reachable state of every execution,
`totalCreated ≥ totalClosed`: `totalClosed` is only incremented when a
previously created (and counted) subscription's destroy resolves. -/
theorem c6_totalCreated_ge_totalClosed (n : Nat) (acts : List Act) (s : SimState)
    (h : run (initState n) acts = some s) :
    s.totalClosed ≤ s.totalCreated := by
  have hinv : Inv n s := inv_run h (inv_init n)
  have := hinv.counter
  omega

/-- Witness for **C6**. -/
theorem c6_totalCreated_ge_totalClosed_witness :
    c6End.totalClosed ≤ c6End.totalCreated :=
  c6_totalCreated_ge_totalClosed 1
    [Act.createRes 0 true 2, Act.lifetimeEnd 0, Act.destroyRes 0 false] c6End rfl

/-- **C7**: in every execution in which every `js.subscribe` and every
`destroy()` call succeeds, the `leaked` figure computed by `printStats`
(`totalCreated - totalClosed - activeConsumers.size`) is `0` at every
reachable state — hence at every reporter tick, since the reporter (a
timer macrotask) only ever observes such states. -/
theorem c7_all_success_leak_zero (n : Nat) (acts : List Act) (s : SimState)
    (h : run (initState n) acts = some s) (hok : ∀ a ∈ acts, a.allOk = true) :
    leaked s = 0 := by
  have hinv : InvOk n s := invOk_run h hok (invOk_init n)
  have h1 := hinv.counter_eq
  have h2 := hinv.len_eq
  have h3 := countP_reg_eq_live_of_no_fail hinv.no_fail
  simp only [leaked]
  omega

/-- Witness for **C7**. -/
theorem c7_all_success_leak_zero_witness :
    leaked c7End = 0 :=
  c7_all_success_leak_zero 1
    [Act.createRes 0 true 4, Act.lifetimeEnd 0, Act.destroyRes 0 true] c7End rfl
    (by decide)

/-- **C10**: a concrete execution with a failed create on slot 0 and a
successful one on slot 1: the `ConsumerInfo` with `subscription = null`
is nevertheless registered under slot 0's id (`runConsumerLoop` calls
`activeConsumers.set` on whatever `createOrderedConsumer` returns), it
stays registered through slot 1's entire successful cycle, and during
that whole window the reported leak `totalCreated - totalClosed -
activeConsumers.size` is `-1` (negative); the entry disappears only at
slot 0's cycle end, when `closeConsumer` no-ops on the `null`
subscription and the loop deletes the entry. -/
theorem c10_failed_create_negative_leak :
    mapGet? c10S1.activeConsumers 0
      = some { id := "consumer_0", subject := "events.sensor.station1.>",
               createdAt := 7, subscription := none, messageCount := 0 }
    ∧ leaked c10S1 = -1
    ∧ mapGet? c10S2.activeConsumers 0
      = some { id := "consumer_0", subject := "events.sensor.station1.>",
               createdAt := 7, subscription := none, messageCount := 0 }
    ∧ leaked c10S2 = -1
    ∧ mapGet? c10S3.activeConsumers 0 = none
    ∧ leaked c10S3 = 0 :=
  ⟨by decide, by decide, by decide, by decide, by decide, by decide⟩

end NatsSim
